import Mathlib

/-!
# Verification of the `etag` tag codec and conditional matcher

Shallow embedding of `src/mod.ts` (the v0.0.2 module, whose helpers live in
`src/_util.ts`) of the `nberlette/etag` repository.  JavaScript machine
integers are modelled as `Nat`/`Int` with explicit `% 2 ^ 32` where 32-bit
overflow matters (the SHA-1 compression function); JavaScript strings are
modelled as Lean `String` with explicit UTF-16 length / UTF-8 encoding
functions where the two notions differ; fallible JavaScript code (thrown
exceptions) is modelled with `Option`/`Except`.

Host services that the source consumes (the current clock `Date.now()`,
`Date`-string parsing and `Date` rendering) are passed explicitly: `encode`
takes the clock value `now` and a `JsEnv` of the date-string conversions, so
that the time dependence of the metadata-tag path is visible in the model.
-/

namespace Etag

/-! ## JavaScript character classes, trimming, and splitting -/

/-- The whitespace class used by JavaScript `String.prototype.trim`,
`parseInt`, and the regex `\s`: space, tab, LF, CR, VT, FF, NBSP, BOM and
the two Unicode line separators. -/
def isJsSpace (c : Char) : Bool :=
  c = ' ' || c = '\t' || c = '\n' || c = '\r' || c.toNat = 11 || c.toNat = 12 ||
  c.toNat = 160 || c.toNat = 65279 || c.toNat = 8232 || c.toNat = 8233

/-- JavaScript `String.prototype.trim`. -/
def jsTrim (s : String) : String :=
  String.mk (((s.toList.dropWhile isJsSpace).reverse.dropWhile isJsSpace).reverse)

/-- JavaScript `String.prototype.startsWith`. -/
def jsStartsWith (s p : String) : Bool :=
  s.toList.take p.toList.length == p.toList

/-- JavaScript string length (`s.length`): the number of UTF-16 code units,
i.e. astral code points count twice. -/
def jsStrLength (s : String) : Nat :=
  (s.toList.map (fun c => if c.toNat < 65536 then 1 else 2)).sum

/-- Helper for `splitComma`: `curr` is the current piece, `pend` the run of
whitespace read since the last non-whitespace character, and `afterSep`
records that we are still inside the greedy `\s*` that trails the previous
comma (that run belongs to the separator and is dropped).  A comma ends the
current piece and discards `pend` (the `\s*` before the comma). -/
def splitCommaGo (cs : List Char) (curr pend : List Char) (afterSep : Bool) :
    List String :=
  match cs with
  | [] => [String.mk (curr ++ pend)]
  | c :: rest =>
    if c = ',' then
      String.mk curr :: splitCommaGo rest [] [] true
    else if isJsSpace c then
      if afterSep then splitCommaGo rest curr pend true
      else splitCommaGo rest curr (pend ++ [c]) false
    else
      splitCommaGo rest (curr ++ pend ++ [c]) [] false

/-- Helper for `jsSplitOnDash`. -/
def splitDashGo (cs : List Char) (curr : List Char) : List String :=
  match cs with
  | [] => [String.mk curr]
  | c :: rest =>
    if c = '-' then String.mk curr :: splitDashGo rest []
    else splitDashGo rest (curr ++ [c])

/-- JavaScript `value.split("-")`: split on every `-`, keeping empty
pieces (`"".split("-")` is `[""]`). -/
def jsSplitOnDash (s : String) : List String := splitDashGo s.toList []

/-- JavaScript `value.split(/\s*,\s*/)` as used by `ifMatch`/`ifNoneMatch`:
split on each comma together with the maximal whitespace runs surrounding
it.  Pieces not adjacent to a comma keep their whitespace, and a string with
no comma is returned whole (untrimmed), exactly as the regex split does. -/
def splitComma (s : String) : List String := splitCommaGo s.toList [] [] false

/-! ## Hexadecimal rendering and `parseInt(_, 16)` -/

/-- Lowercase hex digit for `n % 16`. -/
def hexDigit (n : Nat) : Char :=
  let m := n % 16
  if m < 10 then Char.ofNat (48 + m) else Char.ofNat (87 + m)

/-- Accumulate the hex digits of `n` (most significant first).  The first
argument is fuel (structural recursion so that the kernel can evaluate it);
`n` itself is always enough fuel since `n / 16 < n` for positive `n`. -/
def natToHexAux : Nat → Nat → List Char → List Char
  | 0, _, acc => acc
  | fuel + 1, n, acc =>
    if n = 0 then acc else natToHexAux fuel (n / 16) (hexDigit (n % 16) :: acc)

/-- JavaScript `Number.prototype.toString(16)` for a natural number:
lowercase hex digits, `"0"` for zero, no `0x`. -/
def jsToStringHexNat (n : Nat) : String :=
  if n = 0 then "0" else String.mk (natToHexAux (n + 1) n [])

/-- JavaScript `Number.prototype.toString(16)` for an integer:
a leading `-` for negative values. -/
def jsToStringHexInt (i : Int) : String :=
  if i < 0 then "-" ++ jsToStringHexNat i.natAbs else jsToStringHexNat i.toNat

/-- Value of a single hex digit (either case), `none` otherwise. -/
def hexDigitVal (c : Char) : Option Nat :=
  let n := c.toNat
  if 48 ≤ n && n ≤ 57 then some (n - 48)
  else if 97 ≤ n && n ≤ 102 then some (n - 87)
  else if 65 ≤ n && n ≤ 70 then some (n - 55)
  else none

/-- JavaScript `parseInt(s, 16)`: skip leading whitespace, an optional sign,
an optional `0x`/`0X`, then the longest run of hex digits; `none` models
`NaN` (no digits at all).  The model is exact-integer valued (JavaScript
loses precision above `2^53`, which no tag produced by this module reaches). -/
def jsParseIntHex (s : String) : Option Int :=
  let cs := s.toList.dropWhile isJsSpace
  let sign : Int := if cs.head? = some '-' then -1 else 1
  let cs := match cs with
    | '-' :: rest => rest
    | '+' :: rest => rest
    | _ => cs
  let cs := if cs.take 2 = ['0', 'x'] || cs.take 2 = ['0', 'X'] then cs.drop 2 else cs
  let digits := cs.takeWhile (fun c => (hexDigitVal c).isSome)
  if digits.isEmpty then none
  else some (sign * (digits.foldl (fun a c => a * 16 + ((hexDigitVal c).getD 0)) (0 : Nat) : Nat))

/-! ## UTF-8 encoding (`TextEncoder`) -/

/-- UTF-8 bytes of one Unicode scalar value. -/
def utf8EncodeChar (c : Char) : List Nat :=
  let n := c.toNat
  if n < 128 then [n]
  else if n < 2048 then [192 ||| (n >>> 6), 128 ||| (n &&& 63)]
  else if n < 65536 then
    [224 ||| (n >>> 12), 128 ||| ((n >>> 6) &&& 63), 128 ||| (n &&& 63)]
  else
    [240 ||| (n >>> 18), 128 ||| ((n >>> 12) &&& 63),
     128 ||| ((n >>> 6) &&& 63), 128 ||| (n &&& 63)]

/-- Model of `new TextEncoder().encode(s)` as a byte list. -/
def utf8Encode (s : String) : List Nat :=
  s.toList.flatMap utf8EncodeChar

/-! ## SHA-1 (`crypto.subtle.digestSync("SHA-1", _)`) -/

/-- Truncate to 32 bits. -/
def w32 (n : Nat) : Nat := n % 4294967296

/-- Left-rotate a 32-bit word by `b` bits (argument assumed `< 2^32`). -/
def rotl (b n : Nat) : Nat := w32 (n <<< b) ||| (n >>> (32 - b))

/-- Big-endian bytes of a 32-bit word. -/
def beBytes4 (n : Nat) : List Nat :=
  [(n >>> 24) % 256, (n >>> 16) % 256, (n >>> 8) % 256, n % 256]

/-- Big-endian bytes of a 64-bit length field. -/
def beBytes8 (n : Nat) : List Nat :=
  [(n >>> 56) % 256, (n >>> 48) % 256, (n >>> 40) % 256, (n >>> 32) % 256,
   (n >>> 24) % 256, (n >>> 16) % 256, (n >>> 8) % 256, n % 256]

/-- SHA-1 message padding: `0x80`, zeros to 56 mod 64, 64-bit bit length. -/
def sha1Pad (msg : List Nat) : List Nat :=
  let k := (56 + 64 - (msg.length + 1) % 64) % 64
  msg ++ [128] ++ List.replicate k 0 ++ beBytes8 (msg.length * 8)

/-- Split a byte list into 64-byte chunks (fuel-based structural recursion;
`fuel = l.length` always suffices since each step consumes 64 bytes). -/
def toChunksAux : Nat → List Nat → List (List Nat)
  | 0, _ => []
  | fuel + 1, l => if l.isEmpty then [] else l.take 64 :: toChunksAux fuel (l.drop 64)

/-- Split a byte list into 64-byte chunks. -/
def toChunks (l : List Nat) : List (List Nat) := toChunksAux (l.length + 1) l

/-- Combine bytes into big-endian 32-bit words. -/
def toWords : List Nat → List Nat
  | a :: b :: c :: d :: rest => (a * 16777216 + b * 65536 + c * 256 + d) :: toWords rest
  | _ => []

/-- Extend the 16 chunk words to 80 words: append
`rotl1 (w[i-3] ^ w[i-8] ^ w[i-14] ^ w[i-16])` 64 times. -/
def sha1Extend (ws : List Nat) : List Nat :=
  (List.range 64).foldl
    (fun acc _ =>
      acc ++ [rotl 1 ((acc.getD (acc.length - 3) 0) ^^^ (acc.getD (acc.length - 8) 0) ^^^
        (acc.getD (acc.length - 14) 0) ^^^ (acc.getD (acc.length - 16) 0))])
    ws

/-- One SHA-1 round, with the round-dependent function and constant. -/
def sha1Round (st : Nat × Nat × Nat × Nat × Nat) (iw : Nat × Nat) :
    Nat × Nat × Nat × Nat × Nat :=
  let (a, b, c, d, e) := st
  let (i, w) := iw
  let f :=
    if i < 20 then (b &&& c) ||| ((b ^^^ 4294967295) &&& d)
    else if i < 40 then b ^^^ c ^^^ d
    else if i < 60 then (b &&& c) ||| (b &&& d) ||| (c &&& d)
    else b ^^^ c ^^^ d
  let k :=
    if i < 20 then 1518500249
    else if i < 40 then 1859775393
    else if i < 60 then 2400959708
    else 3395469782
  (w32 (rotl 5 a + f + e + k + w), a, rotl 30 b, c, d)

/-- SHA-1 compression of one 64-byte chunk. -/
def sha1Compress (h : Nat × Nat × Nat × Nat × Nat) (chunk : List Nat) :
    Nat × Nat × Nat × Nat × Nat :=
  let ws := sha1Extend (toWords chunk)
  let (a, b, c, d, e) := ((List.range 80).zip ws).foldl sha1Round h
  (w32 (h.1 + a), w32 (h.2.1 + b), w32 (h.2.2.1 + c), w32 (h.2.2.2.1 + d), w32 (h.2.2.2.2 + e))

/-- SHA-1 digest of a byte list, as the 20 digest bytes. -/
def sha1 (msg : List Nat) : List Nat :=
  let st := (toChunks (sha1Pad msg)).foldl sha1Compress
    (1732584193, 4023233417, 2562383102, 271733878, 3285377520)
  beBytes4 st.1 ++ beBytes4 st.2.1 ++ beBytes4 st.2.2.1 ++ beBytes4 st.2.2.2.1 ++
    beBytes4 st.2.2.2.2

/-! ## Hex dump and base64 (`_util.ts` `digestSync`) -/

/-- JavaScript `String.prototype.padStart(2, "0")`. -/
def padStart2 (s : String) : String :=
  if s.length < 2 then
    String.mk (List.replicate (2 - s.length) '0') ++ s
  else s

/-- The `toHex` helper from `digestSync`: `v.toString(16).padStart(2, "0")`. -/
def toHexByte (v : Nat) : String := padStart2 (jsToStringHexNat v)

/-- Model of `Array.from(bytes, toHex).join("")`. -/
def bytesToHex (bs : List Nat) : String := String.join (bs.map toHexByte)

/-- The standard base64 alphabet. -/
def base64Alphabet : List Char :=
  String.toList "ABCDEFGHIJKLMNOPQRSTUVWXYZabcdefghijklmnopqrstuvwxyz0123456789+/"

/-- Character `n` of the base64 alphabet. -/
def b64char (n : Nat) : Char := base64Alphabet.getD n '='

/-- Standard base64 encoding of a byte list, with `=` padding. -/
def base64Encode : List Nat → String
  | [] => ""
  | [a] =>
    String.mk [b64char (a >>> 2), b64char ((a &&& 3) <<< 4), '=', '=']
  | [a, b] =>
    String.mk [b64char (a >>> 2), b64char (((a &&& 3) <<< 4) ||| (b >>> 4)),
      b64char ((b &&& 15) <<< 2), '=']
  | a :: b :: c :: rest =>
    String.mk [b64char (a >>> 2), b64char (((a &&& 3) <<< 4) ||| (b >>> 4)),
      b64char (((b &&& 15) <<< 2) ||| (c >>> 6)), b64char (c &&& 63)] ++ base64Encode rest

/-- Model of `base64.encode(s)` on an ASCII string (the hex dump): encode its bytes. -/
def base64EncodeStr (s : String) : String :=
  base64Encode (s.toList.map Char.toNat)

/-! ## The data model: entities, options, and the host environment -/

/-- A JavaScript value that can sit in a file-metadata field: a number, a
string, a `Date` (carrying its epoch milliseconds), or `null`. -/
inductive JsVal where
  | num (n : Int)
  | str (s : String)
  | date (ms : Int)
  | nullv
deriving DecidableEq

/-- JavaScript truthiness of a `JsVal`: `0`, `""` and `null` are falsy,
every `Date` object is truthy. -/
def jsTruthy : JsVal → Bool
  | .num n => n ≠ 0
  | .str s => s ≠ ""
  | .date _ => true
  | .nullv => false

/-- A duck-typed file-metadata object: the four fields `isFileInfo` probes
(`none` = key absent), any further own keys, and whether the object is an
instance of the node `Stats` class. -/
structure JsObj where
  isStats : Bool
  ino : Option JsVal
  size : Option JsVal
  mtime : Option JsVal
  ctime : Option JsVal
  extra : List String
deriving DecidableEq

/-- An entity handed to `encode` (the `Entity` union of `mod.d.ts`):
a text string, a `Uint8Array`, an `ArrayBuffer`, or a file-metadata-like
object. -/
inductive Entity where
  | str (s : String)
  | bytes (b : List Nat)
  | abuf (b : List Nat)
  | obj (o : JsObj)
deriving DecidableEq

/-- The `Options` argument: boolean shorthand for `weak`, or a configuration
object whose `weak`/`statTag` keys may each be absent. -/
inductive Options where
  | obool (b : Bool)
  | ocfg (weak : Option Bool) (statTag : Option Bool)
deriving DecidableEq

/-- Effective `weak` flag after the option normalisation every entry point
performs (`is.boolean(options) ? {weak: Boolean(options), statTag: false} :
{weak: false, statTag: false, ...options}`). -/
def weakOf : Options → Bool
  | .obool b => b
  | .ocfg w _ => w.getD false

/-- Effective `statTag` flag after the same normalisation. -/
def statTagOf : Options → Bool
  | .obool _ => false
  | .ocfg _ st => st.getD false

/-- The normalised options object the matchers build before calling
`encode`. -/
def normalizeOptions (o : Options) : Options :=
  .ocfg (some (weakOf o)) (some (statTagOf o))

/-- Host services the source consumes implicitly: `new Date(string)` parsing
(`none` = invalid date, `NaN` milliseconds) and `Date.prototype.toString`
rendering.  The clock `Date.now()` is passed separately as `now`. -/
structure JsEnv where
  parseDate : String → Option Int
  dateToStr : Int → String

/-! ## `_util.ts`: constants, `isFileInfo`, `digestSync` -/

/-- The constant `ETAG_EMPTY`: the fixed empty-entity tag. -/
def ETAG_EMPTY : String := "\"0-2jmj7l5rSw0yVb/vlWAYkK/YBwk=\""

/-- The constant `ETAG_LENGTH`: digest-prefix length kept in a content tag. -/
def ETAG_LENGTH : Nat := 27

/-- The constant `ETAG_MTIME_LENGTH`: maximum hex length of a millisecond timestamp. -/
def ETAG_MTIME_LENGTH : Nat := 12

/-- The check `is.number` on an optional field value. -/
def isNumberV : Option JsVal → Bool
  | some (.num _) => true
  | _ => false

/-- The check `is.any([is.date, is.string, is.number], mtime)`. -/
def isMtimeV : Option JsVal → Bool
  | some (.date _) => true
  | some (.str _) => true
  | some (.num _) => true
  | _ => false

/-- The check `is.nonEmptyObject`: a plain object with at least one own key. -/
def nonEmptyObject (o : JsObj) : Bool :=
  o.ino.isSome || o.size.isSome || o.mtime.isSome || o.ctime.isSome || !o.extra.isEmpty

/-- Model of `isFileInfo` from `_util.ts`: a node `Stats` instance, or a non-empty
object with `ino`, `size`, `mtime` and `ctime` keys whose `ino`-or-`size` is
a number, whose `mtime` is a `Date`/string/number, and whose `size` is a
number.  Strings and buffers are not objects and always fail. -/
def isFileInfo (e : Entity) : Bool :=
  match e with
  | .obj o =>
    if o.isStats then true
    else
      nonEmptyObject o
        && o.ino.isSome
        && o.size.isSome
        && o.mtime.isSome
        && o.ctime.isSome
        && (isNumberV o.ino || isNumberV o.size)
        && isMtimeV o.mtime
        && isNumberV o.size
  | _ => false

/-- Model of `digestSync` from `_util.ts` with the default `"SHA-1"` algorithm:
normalise the entity to bytes (UTF-8 for strings, identity for buffers),
SHA-1 it, render the digest as lowercase hex, and base64-encode that hex
string.  A plain object passes the null guard but is not a `BufferSource`,
so `crypto.subtle.digestSync` throws: modelled as `none`. -/
def digestSync : Entity → Option String
  | .str s => some (base64EncodeStr (bytesToHex (sha1 (utf8Encode s))))
  | .bytes b => some (base64EncodeStr (bytesToHex (sha1 b)))
  | .abuf b => some (base64EncodeStr (bytesToHex (sha1 b)))
  | .obj _ => none

/-! ## `mod.ts`: `encode` -/

/-- Model of `s.slice(0, n)` on an ASCII string. -/
def jsSlice (s : String) (n : Nat) : String := String.mk (s.toList.take n)

/-- Milliseconds of `new Date(entity.mtime || Date.now()).getTime()`:
a falsy or absent `mtime` falls back to the current time; a string `mtime`
goes through the host date parser (`none` = `NaN`). -/
def statMtimeMs (now : Int) (env : JsEnv) (mtime : Option JsVal) : Option Int :=
  match mtime with
  | some v =>
    if jsTruthy v then
      match v with
      | .num n => some n
      | .date ms => some ms
      | .str s => env.parseDate s
      | .nullv => none
    else some now
  | none => some now

/-- The expression `entity.size?.toString(16)` rendered into the tag template: an absent or
`null` size short-circuits to `undefined` (printed as `"undefined"`); a
numeric size renders in hex; `String.prototype.toString` ignores the radix
argument; a `Date` renders through the host. -/
def statSizeStr (env : JsEnv) (size : Option JsVal) : String :=
  match size with
  | none => "undefined"
  | some .nullv => "undefined"
  | some (.num n) => jsToStringHexInt n
  | some (.str s) => s
  | some (.date ms) => env.dateToStr ms

/-- Model of `calcStatTag` from `encode`: `"<size-hex>-<mtime-hex>"` quoted, where an
invalid date prints `NaN`. -/
def calcStatTag (now : Int) (env : JsEnv) (o : JsObj) : String :=
  let mtimeStr := match statMtimeMs now env o.mtime with
    | some ms => jsToStringHexInt ms
    | none => "NaN"
  "\"" ++ statSizeStr env o.size ++ "-" ++ mtimeStr ++ "\""

/-- Common tail of `calcEntityTag`: `length &&= length.toString(16)` keeps a
zero length as the number `0` (rendered `"0"`), and the tag is
`"<length>-<digest-prefix(27)>"` quoted.  `none` when the digest throws. -/
def entityTagOf (length : Nat) (converted : Entity) : Option String :=
  let lengthStr := if length = 0 then "0" else jsToStringHexNat length
  (digestSync converted).map fun h =>
    "\"" ++ lengthStr ++ "-" ++ jsSlice h ETAG_LENGTH ++ "\""

/-- Model of `calcEntityTag` from `encode`.  Only an empty `Uint8Array` reaches the
`ETAG_EMPTY` short-circuit.  A non-empty `Uint8Array` matches none of the
branches, so the `length` variable keeps its initial `0`; a string
contributes its UTF-16 `length` (before UTF-8 conversion); an `ArrayBuffer`
is converted and measured.  A plain object falls through to the digest,
which throws (`none`). -/
def calcEntityTag (e : Entity) : Option String :=
  match e with
  | .bytes b =>
    if b.length = 0 then some ETAG_EMPTY
    else entityTagOf 0 (.bytes b)
  | .str s => entityTagOf (jsStrLength s) (.bytes (utf8Encode s))
  | .abuf b => entityTagOf b.length (.bytes b)
  | .obj o => entityTagOf 0 (.obj o)

/-- Model of `encode` from `mod.ts` (v0.0.2).  `hasFileInfo` is
`isFileInfo(entity) || (isFileInfo(entity) && opt.statTag)`, which equals
`isFileInfo(entity)` — the `statTag` conjunct is absorbed.  The weak prefix
is added when `opt.weak || hasFileInfo`.  `none` models a thrown
exception. -/
def encode (now : Int) (env : JsEnv) (entity : Entity) (options : Options) :
    Option String :=
  let hasFileInfo := isFileInfo entity || (isFileInfo entity && statTagOf options)
  let tag? : Option String :=
    if hasFileInfo then
      match entity with
      | .obj o => some (calcStatTag now env o)
      | _ => none  -- unreachable: isFileInfo holds only for objects
    else calcEntityTag entity
  tag?.map fun tag => (if weakOf options || hasFileInfo then "W/" else "") ++ tag

/-! ## `mod.ts`: `ifMatch` and `ifNoneMatch` -/

/-- Model of `ifMatch` from `mod.ts` (v0.0.2): normalise the options, encode, then:
a weak tag never matches; `"*"` matches; otherwise exact membership in the
comma-split candidate list.  `none` models `encode` throwing. -/
def ifMatch (now : Int) (env : JsEnv) (value : String) (entity : Entity)
    (options : Options) : Option Bool :=
  (encode now env entity (normalizeOptions options)).map fun etag =>
    if jsStartsWith etag "W/" then false
    else if jsTrim value = "*" then true
    else (splitComma value).contains etag

/-- Model of `ifNoneMatch` from `mod.ts` (v0.0.2): `"*"` returns `false` before any
tag is computed; otherwise the options are rebuilt
(`{weak: …, statTag: false}` then `Object.assign` for plain objects — the
same normalisation) and the result is non-membership of the encoded tag in
the comma-split candidate list. -/
def ifNoneMatch (now : Int) (env : JsEnv) (value : String) (entity : Entity)
    (options : Options) : Option Bool :=
  if jsTrim value = "*" then some false
  else
    (encode now env entity (normalizeOptions options)).map fun etag =>
      !((splitComma value).contains etag)

/-! ## `mod.ts` and `_util.ts`: `decode` -/

/-- The structured result of `decode`: exactly one of `mtime` (epoch
milliseconds of the reconstructed `Date`) and `hash` is populated. -/
structure Decoded where
  weak : Bool
  etag : String
  size : Int
  mtime : Option Int
  hash : Option String
deriving DecidableEq

/-- Model of `decodeStatTag` from `_util.ts`: split on `-`, `parseInt(_, 16)` each
segment with `NaN ↦ 0`, destructure the first two as `(size, time)`, and
build the `Date` from `time`.  (With fewer than two segments `time` is
`undefined` and the `Date` is invalid — unreachable from `decode`, which
checks the second segment first.)  Returns `(size, mtime, hash)`. -/
def decodeStatTag (value : String) : Int × Option Int × Option String :=
  let nums := (jsSplitOnDash value).map fun n => (jsParseIntHex n).getD 0
  match nums with
  | size :: time :: _ => (size, some time, none)
  | [size] => (size, none, none)
  | [] => (0, none, none)

/-- Model of `decodeEntityTag` from `_util.ts`: split on `-`, keep the second segment
as the opaque hash, `parseInt(_, 16)` the first with `NaN ↦ 0`.  Returns
`(size, mtime, hash)`. -/
def decodeEntityTag (value : String) : Int × Option Int × Option String :=
  match jsSplitOnDash value with
  | length :: hash :: _ => ((jsParseIntHex length).getD 0, none, some hash)
  | [length] => ((jsParseIntHex length).getD 0, none, none)
  | [] => (0, none, none)

/-- Model of `etag.replace(/^(?:W\/)?"(.*)"$/, "$1")`: strip an optional `W/` and the
surrounding quotes when the whole string matches (the quoted body may not
contain a line terminator, which `.` does not match); otherwise the string
is returned unchanged. -/
def stripTagQuotes (s : String) : String :=
  let cs := s.toList
  let core := if cs.take 2 = ['W', '/'] then cs.drop 2 else cs
  match core with
  | '"' :: rest =>
    if !rest.isEmpty && rest.getLast? == some '"' &&
        rest.dropLast.all (fun c => !(c = '\n' || c = '\r' || c.toNat = 8232 || c.toNat = 8233)) then
      String.mk rest.dropLast
    else s
  | _ => s

/-- The body of `decode` before its `try`/`catch`: trim, record the weak
prefix, strip the quotes, and read `value.split("-")[1].length` — when the
second segment is missing this is a property access on `undefined`, modelled
as a thrown `TypeError` (`Except.error`).  Otherwise dispatch on whether
that segment's UTF-16 length is at most `ETAG_MTIME_LENGTH`. -/
def decodeBody (s : String) : Except String Decoded :=
  let t := jsTrim s
  let weak := jsStartsWith t "W/"
  let value := jsTrim (stripTagQuotes t)
  match (jsSplitOnDash value)[1]? with
  | none => Except.error "TypeError: Cannot read properties of undefined (reading length)"
  | some seg1 =>
    let r := if jsStrLength seg1 ≤ ETAG_MTIME_LENGTH then decodeStatTag value
             else decodeEntityTag value
    Except.ok { weak := weak, etag := t, size := r.1, mtime := r.2.1, hash := r.2.2 }

/-- Model of `decode` from `mod.ts` (v0.0.2): the `try`/`catch` converts any thrown
exception into `undefined` (`none`). -/
def decode (s : String) : Option Decoded :=
  match decodeBody s with
  | .ok d => some d
  | .error _ => none

/-! ## Remaining definitions: sample environment, concrete objects -/

/-- A fixed host environment for concrete evaluations: every date string is
an invalid date, and `Date.prototype.toString` renders the empty string.
(No theorem about a concrete tag below ever exercises these functions.) -/
def sampleEnv : JsEnv := ⟨fun _ => none, fun _ => ""⟩

/-- The default `options = {}`. -/
def dfltOpts : Options := .ocfg none none

/-- An entity whose `mtime` field is present and truthy (so the metadata
path never consults the clock). -/
def mtimePresentTruthy : Entity → Bool
  | .obj o =>
    match o.mtime with
    | some v => jsTruthy v
    | none => false
  | _ => false

/-- A file-metadata object used for concrete instances: not a `Stats`
instance, with numeric `ino` and `size`, a `Date` `mtime` and a `null`
`ctime` key.  It encodes to `W/"10-ff"`. -/
def statObjFF : JsObj :=
  ⟨false, some (.num 1), some (.num 16), some (.date 255), some .nullv, []⟩

/-- A `Stats` instance whose `mtime` field is absent, as used by the C7
counterexample. -/
def statsNoMtime : JsObj := ⟨true, none, some (.num 5), none, none, []⟩

/-- A record with numeric `size`, numeric `ino` and `Date` `mtime` but no
`ctime` key, as used by the C9 counterexample. -/
def noCtimeObj : JsObj := ⟨false, some (.num 1), some (.num 2), some (.date 3), none, []⟩

set_option maxRecDepth 1000000

/-! ## Helper lemmas -/

/-- Normalising the options does not change the effective `weak` flag. -/
theorem weakOf_normalize (o : Options) : weakOf (normalizeOptions o) = weakOf o := by
  cases o <;> rfl

/-- Normalising the options does not change the effective `statTag` flag. -/
theorem statTagOf_normalize (o : Options) :
    statTagOf (normalizeOptions o) = statTagOf o := by
  cases o <;> rfl

/-- The function `encode` only consumes the options through
`weakOf`/`statTagOf`, so the matchers' option rebuilding is invisible to
it. -/
theorem encode_normalize (now : Int) (env : JsEnv) (e : Entity) (o : Options) :
    encode now env e (normalizeOptions o) = encode now env e o := by
  unfold encode
  rw [weakOf_normalize, statTagOf_normalize]

/-- Every tag produced by `entityTagOf` opens with a double quote. -/
theorem entityTagOf_quote (length : Nat) (conv : Entity) (t : String)
    (h : entityTagOf length conv = some t) : t.toList.head? = some '"' := by
  unfold entityTagOf at h
  rw [Option.map_eq_some'] at h
  obtain ⟨hsh, -, rfl⟩ := h
  simp [String.toList, String.data_append]

/-- Every tag produced by `calcEntityTag` opens with a double quote. -/
theorem calcEntityTag_quote (e : Entity) (t : String)
    (h : calcEntityTag e = some t) : t.toList.head? = some '"' := by
  cases e with
  | bytes b =>
    simp only [calcEntityTag] at h
    by_cases hb : b.length = 0
    · rw [if_pos hb] at h
      cases h
      rfl
    · rw [if_neg hb] at h
      exact entityTagOf_quote _ _ _ h
  | str s =>
    simp only [calcEntityTag] at h
    exact entityTagOf_quote _ _ _ h
  | abuf b =>
    simp only [calcEntityTag] at h
    exact entityTagOf_quote _ _ _ h
  | obj o =>
    simp only [calcEntityTag] at h
    exact entityTagOf_quote _ _ _ h

/-- A string whose first character is `"` does not start with `W/`. -/
theorem not_startsWith_W_of_quote (t : String) (h : t.toList.head? = some '"') :
    jsStartsWith t "W/" = false := by
  unfold jsStartsWith
  match ht : t.toList with
  | [] => rw [ht] at h; cases h
  | c :: rest =>
    rw [ht] at h
    cases h
    simp

/-- Prepending `W/` makes a string start with `W/`. -/
theorem startsWith_W_append (t : String) : jsStartsWith ("W/" ++ t) "W/" = true := by
  unfold jsStartsWith
  simp [String.toList, String.data_append]

/-- The empty prefix is the identity for string append. -/
theorem empty_append_str (s : String) : "" ++ s = s := by
  apply String.ext
  simp [String.data_append]

/-- The check `isNumberV` implies the field is present. -/
theorem isSome_of_isNumberV (x : Option JsVal) (h : isNumberV x = true) :
    x.isSome = true := by
  match x with
  | none => cases h
  | some v => rfl

/-- The check `isMtimeV` implies the field is present. -/
theorem isSome_of_isMtimeV (x : Option JsVal) (h : isMtimeV x = true) :
    x.isSome = true := by
  match x with
  | none => cases h
  | some v => rfl

/-! ## Claim theorems -/

/-- Claim C1, counterexample: the empty string is UTF-8-encoded only after
the `Uint8Array` emptiness check, so `encode("")` hashes the empty byte
sequence instead of short-circuiting to `ETAG_EMPTY`. -/
theorem encode_empty_string_ne_empty_constant :
    encode 0 sampleEnv (.str "") dfltOpts ≠ some ETAG_EMPTY := by decide

/-- Claim C1, amended: with default options, the empty `Uint8Array` yields
the fixed `ETAG_EMPTY` constant, while the empty string yields
`"0-<27-char digest prefix of zero bytes>"`, a different tag. -/
theorem encode_empty_entities_amended (now : Int) (env : JsEnv) :
    encode now env (.bytes []) dfltOpts = some ETAG_EMPTY ∧
    encode now env (.str "") dfltOpts =
      some "\"0-ZGEzOWEzZWU1ZTZiNGIwZDMyNTV\"" :=
  ⟨rfl, rfl⟩

/-- Claim C2: the encoded tag starts with `W/` iff the entity is classified
as file metadata or the effective `weak` option is set (`weakOf` is `true`
exactly for the boolean shorthand `true` and for a configuration with
`weak: true`). -/
theorem encode_weak_iff (now : Int) (env : JsEnv) (e : Entity) (o : Options)
    (t : String) (h : encode now env e o = some t) :
    jsStartsWith t "W/" = true ↔ (isFileInfo e = true ∨ weakOf o = true) := by
  unfold encode at h
  cases hFI : isFileInfo e with
  | false =>
    rw [hFI] at h
    simp only [Bool.false_and, Bool.false_or, Bool.false_eq_true, if_false,
      Bool.or_false] at h
    rw [Option.map_eq_some'] at h
    obtain ⟨tag, htag, rfl⟩ := h
    cases hw : weakOf o with
    | true =>
      simp [startsWith_W_append]
    | false =>
      simp only [Bool.false_eq_true, if_false, empty_append_str]
      rw [not_startsWith_W_of_quote tag (calcEntityTag_quote e tag htag)]
      simp
  | true =>
    rw [hFI] at h
    simp only [Bool.true_and, Bool.true_or, Bool.or_true, if_true] at h
    cases e with
    | str s => simp [isFileInfo] at hFI
    | bytes b => simp [isFileInfo] at hFI
    | abuf b => simp [isFileInfo] at hFI
    | obj oo =>
      rw [show (Option.map (fun tag => "W/" ++ tag)
          (some (calcStatTag now env oo)) = some ("W/" ++ calcStatTag now env oo))
        from rfl] at h
      cases h
      simp [startsWith_W_append]

/-- Claim C2, witness: the metadata object encodes to `W/"10-ff"`, which
starts with `W/` because the entity is file metadata. -/
theorem encode_weak_iff_witness :
    jsStartsWith "W/\"10-ff\"" "W/" = true ↔
      (isFileInfo (.obj statObjFF) = true ∨ weakOf dfltOpts = true) :=
  encode_weak_iff 0 sampleEnv (.obj statObjFF) dfltOpts "W/\"10-ff\"" (by decide)

/-- Claim C3: `ifMatch` returns `false` whenever the computed tag is weak
(even for `"*"`); otherwise a trimmed `"*"` matches; otherwise the result is
exact membership of the computed tag in the comma-split candidate list. -/
theorem ifMatch_spec (now : Int) (env : JsEnv) (v : String) (e : Entity)
    (o : Options) (t : String) (h : encode now env e o = some t) :
    (jsStartsWith t "W/" = true → ifMatch now env v e o = some false) ∧
    (jsStartsWith t "W/" = false → jsTrim v = "*" →
      ifMatch now env v e o = some true) ∧
    (jsStartsWith t "W/" = false → jsTrim v ≠ "*" →
      (ifMatch now env v e o = some true ↔ (splitComma v).contains t = true)) := by
  unfold ifMatch
  rw [encode_normalize, h]
  refine ⟨fun hw => ?_, fun hw hstar => ?_, fun hw hstar => ?_⟩
  · simp [hw]
  · simp [hw, hstar]
  · simp [hw, hstar]

/-- Claim C3, witness: the metadata object's tag is weak, so even `"*"`
fails `ifMatch`. -/
theorem ifMatch_spec_witness :
    ifMatch 0 sampleEnv "*" (.obj statObjFF) dfltOpts = some false :=
  (ifMatch_spec 0 sampleEnv "*" (.obj statObjFF) dfltOpts "W/\"10-ff\""
    (by decide)).1 (by decide)

/-- Claim C4: `ifNoneMatch` returns `false` for a trimmed `"*"` (before any
tag is computed); otherwise it returns `true` iff the computed tag (weak
ones included) is not among the comma-split candidates. -/
theorem ifNoneMatch_spec (now : Int) (env : JsEnv) (v : String) (e : Entity)
    (o : Options) :
    (jsTrim v = "*" → ifNoneMatch now env v e o = some false) ∧
    (∀ t, jsTrim v ≠ "*" → encode now env e o = some t →
      (ifNoneMatch now env v e o = some true ↔
        ¬(splitComma v).contains t = true)) := by
  constructor
  · intro hstar
    unfold ifNoneMatch
    rw [if_pos hstar]
  · intro t hstar h
    unfold ifNoneMatch
    rw [if_neg hstar, encode_normalize, h]
    simp

/-- Claim C4, witness: a header that does not list the strong tag of `"a"`
no-matches (`true`). -/
theorem ifNoneMatch_spec_witness :
    ifNoneMatch 0 sampleEnv "abc" (.str "a") dfltOpts = some true :=
  ((ifNoneMatch_spec 0 sampleEnv "abc" (.str "a") dfltOpts).2
    "\"1-ODZmN2U0MzdmYWE1YTdmY2UxNWQ\"" (by decide) (by decide)).mpr (by decide)

/-- Claim C5, code bug: for a non-empty `Uint8Array` no branch of
`calcEntityTag` assigns the `length` variable, so the tag's first segment is
`"0"` and `decode(encode(e)).size` is `0`, not the byte length `1`; and a
string contributes its UTF-16 code-unit count (here 1) rather than its
UTF-8 byte length (here 2). -/
theorem encode_size_segment_bug :
    encode 0 sampleEnv (.bytes [97]) dfltOpts =
      some "\"0-ODZmN2U0MzdmYWE1YTdmY2UxNWQ\"" ∧
    decode "\"0-ODZmN2U0MzdmYWE1YTdmY2UxNWQ\"" =
      some ⟨false, "\"0-ODZmN2U0MzdmYWE1YTdmY2UxNWQ\"", 0, none,
        some "ODZmN2U0MzdmYWE1YTdmY2UxNWQ"⟩ ∧
    encode 0 sampleEnv (.str "é") dfltOpts =
      some "\"1-YmYxNWJlNzE3YWMxYjA4MGI0ZjF\"" ∧
    (utf8Encode "é").length = 2 :=
  ⟨by decide, by decide, by decide, by decide⟩

/-- Claim C6: `decode` never propagates an exception: whenever the unguarded
body succeeds the value is returned, and whenever it throws the sentinel
`none` (`undefined`) is returned instead — distinguished from every decoded
tag. -/
theorem decode_total_spec (s : String) :
    (∀ d, decodeBody s = .ok d → decode s = some d) ∧
    (∀ msg, decodeBody s = .error msg → decode s = none) := by
  constructor
  · intro d h
    unfold decode
    rw [h]
  · intro msg h
    unfold decode
    rw [h]

/-- Claim C6, witness: a string with no `-` makes the body throw, and
`decode` returns the sentinel. -/
theorem decode_total_spec_witness : decode "xyz" = none :=
  (decode_total_spec "xyz").2
    "TypeError: Cannot read properties of undefined (reading length)" rfl

/-- Claim C7, counterexample: for a `Stats` instance without an `mtime`
field the metadata path substitutes `Date.now()`, so two calls at different
clock values return different tags. -/
theorem encode_clock_dependent :
    encode 0 sampleEnv (.obj statsNoMtime) dfltOpts ≠
      encode 1 sampleEnv (.obj statsNoMtime) dfltOpts := by decide

/-- Claim C7, amended: `encode`, `ifMatch` and `ifNoneMatch` are
deterministic — independent of the clock — for every entity that is either
not classified as file metadata or has a present, truthy `mtime`; only the
metadata path with an absent/falsy `mtime` substitutes `Date.now()`. -/
theorem encode_deterministic_amended (n1 n2 : Int) (env : JsEnv) (v : String)
    (e : Entity) (o : Options)
    (h : isFileInfo e = true → mtimePresentTruthy e = true) :
    encode n1 env e o = encode n2 env e o ∧
    ifMatch n1 env v e o = ifMatch n2 env v e o ∧
    ifNoneMatch n1 env v e o = ifNoneMatch n2 env v e o := by
  have key : ∀ opts : Options, encode n1 env e opts = encode n2 env e opts := by
    intro opts
    unfold encode
    cases hFI : isFileInfo e with
    | false => simp
    | true =>
      cases e with
      | str s => simp [isFileInfo] at hFI
      | bytes b => simp [isFileInfo] at hFI
      | abuf b => simp [isFileInfo] at hFI
      | obj oo =>
        have hmt : mtimePresentTruthy (.obj oo) = true := h hFI
        match hmo : oo.mtime with
        | none =>
          simp only [mtimePresentTruthy, hmo] at hmt
          cases hmt
        | some mv =>
          simp only [mtimePresentTruthy, hmo] at hmt
          have hst : calcStatTag n1 env oo = calcStatTag n2 env oo := by
            simp only [calcStatTag, statMtimeMs, hmo, hmt, if_true]
          simp [hst]
  refine ⟨key o, ?_, ?_⟩
  · unfold ifMatch
    rw [key (normalizeOptions o)]
  · unfold ifNoneMatch
    rw [key (normalizeOptions o)]

/-- Claim C7, witness: a plain string entity is clock-independent. -/
theorem encode_deterministic_amended_witness :
    encode 0 sampleEnv (.str "x") dfltOpts = encode 5 sampleEnv (.str "x") dfltOpts ∧
    ifMatch 0 sampleEnv "q" (.str "x") dfltOpts =
      ifMatch 5 sampleEnv "q" (.str "x") dfltOpts ∧
    ifNoneMatch 0 sampleEnv "q" (.str "x") dfltOpts =
      ifNoneMatch 5 sampleEnv "q" (.str "x") dfltOpts :=
  encode_deterministic_amended 0 5 sampleEnv "q" (.str "x") dfltOpts (by decide)

/-- Claim C8, code bug: the `statTag` option is dead —
`isFileInfo(entity) || (isFileInfo(entity) && opt.statTag)` absorbs to
`isFileInfo(entity)`, so the flag never changes which tag variant is
produced; in particular a string entity with `{statTag: true}` still yields
a strong content tag. -/
theorem statTag_no_effect :
    (∀ (now : Int) (env : JsEnv) (e : Entity) (w st st' : Option Bool),
      encode now env e (.ocfg w st) = encode now env e (.ocfg w st')) ∧
    encode 0 sampleEnv (.str "abc") (.ocfg none (some true)) =
      some "\"3-YTk5OTNlMzY0NzA2ODE2YWJhM2U\"" := by
  constructor
  · intro now env e w st st'
    unfold encode
    cases hFI : isFileInfo e <;> simp [weakOf, statTagOf]
  · decide

/-- Claim C9, counterexample: a record of size + modification timestamp +
inode identifier (but no `ctime` key) is NOT classified as file metadata;
`encode` then takes the content path and throws on the object. -/
theorem isFileInfo_missing_ctime :
    isFileInfo (.obj noCtimeObj) = false ∧
    encode 0 sampleEnv (.obj noCtimeObj) dfltOpts = none := by decide

/-- Claim C9, amended: an object is classified as file metadata iff it is a
node `Stats` instance, or it has all four keys `ino`, `size`, `mtime`
**and** `ctime` present with a numeric `size` and a `Date`/string/number
`mtime` (`ino` needs only presence).  The `ctime` key is required, contrary
to the claim's "no further fields". -/
theorem isFileInfo_characterization_amended (o : JsObj) :
    isFileInfo (.obj o) = true ↔
      (o.isStats = true ∨
        (o.ino.isSome = true ∧ isNumberV o.size = true ∧ isMtimeV o.mtime = true ∧
          o.ctime.isSome = true)) := by
  unfold isFileInfo
  cases hS : o.isStats with
  | true => simp [hS]
  | false =>
    simp only [hS, Bool.false_eq_true, if_false, false_or]
    constructor
    · intro h
      simp only [Bool.and_eq_true] at h
      exact ⟨h.1.1.1.1.1.1.2, h.2, h.1.2, h.1.1.1.2⟩
    · rintro ⟨hino, hsize, hmtime, hctime⟩
      simp only [Bool.and_eq_true, Bool.or_eq_true]
      have hne : nonEmptyObject o = true := by
        unfold nonEmptyObject
        simp [hino]
      exact ⟨⟨⟨⟨⟨⟨⟨hne, hino⟩, isSome_of_isNumberV _ hsize⟩,
        isSome_of_isMtimeV _ hmtime⟩, hctime⟩, Or.inr hsize⟩, hmtime⟩, hsize⟩

/-- Claim C10: `decode` dispatches on the UTF-16 character length of the
second `-`-separated payload segment alone: at most 12 gives a metadata tag
(second segment hex-parsed into epoch milliseconds, hash empty), otherwise a
content tag (second segment kept verbatim as the hash, mtime empty); the
first segment is hex-parsed as the size (`NaN ↦ 0`) either way, and the weak
flag and original (trimmed) tag are recorded. -/
theorem decode_variant_dispatch (s a seg1 : String) (rest : List String)
    (h : jsSplitOnDash (jsTrim (stripTagQuotes (jsTrim s))) = a :: seg1 :: rest) :
    decode s = some ⟨jsStartsWith (jsTrim s) "W/", jsTrim s,
      (jsParseIntHex a).getD 0,
      if jsStrLength seg1 ≤ ETAG_MTIME_LENGTH then some ((jsParseIntHex seg1).getD 0)
      else none,
      if jsStrLength seg1 ≤ ETAG_MTIME_LENGTH then none else some seg1⟩ := by
  unfold decode decodeBody decodeStatTag decodeEntityTag
  simp only [h]
  by_cases hle : jsStrLength seg1 ≤ ETAG_MTIME_LENGTH
  · simp [hle]
  · simp [hle]

/-- Claim C10, witness: the concrete scenario from the specification —
`decode('W/"14-18a2f3"')` yields a weak metadata tag of size `0x14 = 20`
and mtime `0x18a2f3 = 1614579` milliseconds, with no hash. -/
theorem decode_variant_dispatch_witness :
    decode "W/\"14-18a2f3\"" =
      some ⟨true, "W/\"14-18a2f3\"", 20, some 1614579, none⟩ := by
  rw [decode_variant_dispatch "W/\"14-18a2f3\"" "14" "18a2f3" [] (by decide)]
  decide

end Etag
